import Mathlib

/-!
Verification of the Customer-Satisfaction-360 pipeline.

Shallow embedding of the two source programs:
  * lambda_function.py — per-file validation, partition writing, quality
    score aggregation and the batch trigger;
  * glue_job.py — the consolidation run (tracking record lifecycle,
    sentiment enrichment, final profile write).

Python machine values are modelled with Nat / Int / Rat, strings with
Lean strings over their character lists, dictionaries with association
lists, and fallible code with Option / Except.  String primitives
(strip, split, replace, lower, containment) are given structural
definitions over the character list so that every definition evaluates
inside the kernel.  Scope notes: Python `str.isdigit` is modelled on
ASCII digits, `int(...)`/`float(...)` string parsing on plain decimal
literals (no underscores, exponents or inf/nan), which covers every
input class the claims exercise.
-/

/-! ### Python string helpers -/

/-- Python `str.strip()` on a character list: drop surrounding
whitespace. -/
def charsTrim (l : List Char) : List Char :=
  ((l.dropWhile Char.isWhitespace).reverse.dropWhile Char.isWhitespace).reverse

/-- Python `str.strip()`. -/
def pyTrim (s : String) : String :=
  ⟨charsTrim s.data⟩

/-- Python `str.lower()` (ASCII fragment). -/
def pyLower (s : String) : String :=
  ⟨s.data.map Char.toLower⟩

/-- Python `str.split(sep)` for a one-character separator, on the
character list: `"" ↦ [""]`, separators at the ends produce empty
pieces. -/
def splitChar (c : Char) : List Char → List (List Char)
  | [] => [[]]
  | x :: xs =>
    let r := splitChar c xs
    if x == c then [] :: r
    else
      match r with
      | [] => [[x]]
      | h :: t => (x :: h) :: t

/-- Python `str.split(sep)` for a one-character separator. -/
def pySplit (c : Char) (s : String) : List String :=
  (splitChar c s.data).map String.mk

/-- Python `str.isdigit()` (ASCII fragment): non-empty and all digits. -/
def pyIsdigit (s : String) : Bool :=
  !s.data.isEmpty && s.data.all Char.isDigit

/-- Numeric value of a digit list (most significant first). -/
def digitsVal (l : List Char) : Nat :=
  l.foldl (fun a c => a * 10 + (c.toNat - 48)) 0

/-- Python `int(str)`: strips surrounding whitespace, optional sign,
then decimal digits; anything else raises, modelled as `none`. -/
def pyInt? (s : String) : Option Int :=
  let t := (pyTrim s).data
  let signed : Int × List Char :=
    match t with
    | '-' :: r => (-1, r)
    | '+' :: r => (1, r)
    | _ => (1, t)
  if signed.2.isEmpty then none
  else if signed.2.all Char.isDigit then
    some (signed.1 * (digitsVal signed.2 : Int))
  else none

/-- Python `float(str)` (plain decimal fragment): strips whitespace,
optional sign, digits with an optional fractional part; `"5."` and
`".5"` parse, `"."` and `""` do not.  Failure (`ValueError`) is `none`. -/
def parseFloatStr? (s : String) : Option ℚ :=
  let t := (pyTrim s).data
  let signed : ℚ × List Char :=
    match t with
    | '-' :: r => (-1, r)
    | '+' :: r => (1, r)
    | _ => (1, t)
  let ip := signed.2.takeWhile Char.isDigit
  let rest := signed.2.dropWhile Char.isDigit
  match rest with
  | [] =>
    if ip.isEmpty then none
    else some (signed.1 * (digitsVal ip : ℚ))
  | '.' :: fp =>
    if fp.all Char.isDigit && !(ip.isEmpty && fp.isEmpty) then
      some (signed.1 * ((digitsVal ip : ℚ) + (digitsVal fp : ℚ) / (10 : ℚ) ^ fp.length))
    else none
  | _ => none

/-- Substring containment, Python `pat in s`. -/
def containsSub (pat s : String) : Bool :=
  (List.range (s.data.length + 1)).any (fun i => pat.data.isPrefixOf (s.data.drop i))

/-- Leftmost, non-overlapping replacement of every occurrence of a
(non-empty) pattern, fuel-indexed so that it is structural; the fuel is
instantiated with the string length, enough for every step to consume
at least one character. -/
def replaceGo (pat rep : List Char) : Nat → List Char → List Char
  | _, [] => []
  | 0, l => l
  | fuel + 1, x :: xs =>
    if pat.isPrefixOf (x :: xs) && !pat.isEmpty then
      rep ++ replaceGo pat rep fuel (List.drop (pat.length - 1) xs)
    else
      x :: replaceGo pat rep fuel xs

/-- Python `str.replace(pat, rep)` for a non-empty pattern. -/
def pyReplace (s pat rep : String) : String :=
  ⟨replaceGo pat.data rep.data s.data.length s.data⟩

/-- `str.startswith(p)`. -/
def strStarts (p s : String) : Bool :=
  p.data.isPrefixOf s.data

/-- `str.endswith(p)`. -/
def strEnds (p s : String) : Bool :=
  p.data.reverse.isPrefixOf s.data.reverse

/-! ### `is_valid_date` (lambda_function.py lines 32–37)

`datetime.strptime(date_str, "%Y-%m-%d")` matches exactly four year
digits, one or two month digits (value 1–12) and one or two day digits,
and the constructed date must exist in the proleptic Gregorian
calendar (year at least 1); any failure is caught and returns False. -/

def isLeapYear (y : Nat) : Bool :=
  y % 4 == 0 && (y % 100 != 0 || y % 400 == 0)

def daysInMonth (y m : Nat) : Nat :=
  if m == 2 then (if isLeapYear y then 29 else 28)
  else if m == 4 || m == 6 || m == 9 || m == 11 then 30
  else 31

def is_valid_date (s : String) : Bool :=
  match pySplit '-' s with
  | [ys, ms, ds] =>
    pyIsdigit ys && ys.length == 4 &&
    pyIsdigit ms && ms.length ≤ 2 &&
    pyIsdigit ds && ds.length ≤ 2 &&
    (let y := digitsVal ys.data
     let m := digitsVal ms.data
     let d := digitsVal ds.data
     1 ≤ y && 1 ≤ m && m ≤ 12 && 1 ≤ d && d ≤ daysInMonth y m)
  | _ => false

/-- The strict reading of the spec pattern `YYYY-MM-DD`: exactly four
year digits, exactly two month digits and exactly two day digits,
denoting an existing calendar date. -/
def strictDateFormat (s : String) : Bool :=
  match pySplit '-' s with
  | [ys, ms, ds] =>
    pyIsdigit ys && ys.length == 4 &&
    pyIsdigit ms && ms.length == 2 &&
    pyIsdigit ds && ds.length == 2 &&
    (let y := digitsVal ys.data
     let m := digitsVal ms.data
     let d := digitsVal ds.data
     1 ≤ y && 1 ≤ m && m ≤ 12 && 1 ≤ d && d ≤ daysInMonth y m)
  | _ => false

/-! ### XML customer records (`process_xml_records`, lines 40–65) -/

/-- An XML child element as `Element.find` returns it: its text, which
`xml.etree` reports as `None` for an empty element. -/
structure XmlField where
  text : Option String
deriving DecidableEq, Repr

/-- A `<Customer>` element: the `find` results for the three children
the validator inspects.  `none` models a missing child element. -/
structure Customer where
  cid : Option XmlField
  name : Option XmlField
  city : Option XmlField
deriving DecidableEq, Repr

/-- The validity test of the loop body of `process_xml_records`:
all three children present, the CustomerID text truthy and
digit-only after stripping, Name and City text truthy and non-blank
after stripping. -/
def xmlCustomerValid (c : Customer) : Bool :=
  match c.cid, c.name, c.city with
  | some cid, some nm, some ct =>
    (match cid.text with
     | none => false
     | some t => !(t == "") && pyIsdigit (pyTrim t)) &&
    (match nm.text with
     | none => false
     | some t => !(t == "") && !(pyTrim t == "")) &&
    (match ct.text with
     | none => false
     | some t => !(t == "") && !(pyTrim t == ""))
  | _, _, _ => false

/-- `process_xml_records`: splits the customer list into
(valid_customers, invalid_customers), preserving order. -/
def process_xml_records : List Customer → List Customer × List Customer
  | [] => ([], [])
  | c :: rest =>
    let vi := process_xml_records rest
    if xmlCustomerValid c then (c :: vi.1, vi.2) else (vi.1, c :: vi.2)

/-- Blank per the spec: element text absent or whitespace-only. -/
def fieldBlank (f : XmlField) : Bool :=
  match f.text with
  | none => true
  | some t => pyTrim t == ""

/-- Numeric per the spec: stripped element text is a digit string. -/
def fieldNumeric (f : XmlField) : Bool :=
  match f.text with
  | none => false
  | some t => pyIsdigit (pyTrim t)

/-- Spec-side predicate for claim C7: a customer record is rejected iff
CustomerID, Name or City is missing, or its text is blank, or the
CustomerID text is not numeric. -/
def specCustomerRejected (c : Customer) : Bool :=
  c.cid.isNone || c.name.isNone || c.city.isNone ||
  (match c.cid with | some f => fieldBlank f || !(fieldNumeric f) | none => true) ||
  (match c.name with | some f => fieldBlank f | none => true) ||
  (match c.city with | some f => fieldBlank f | none => true)

/-! ### JSON purchase records (`process_json_records`, lines 75–94) -/

/-- A JSON value as `json.loads` produces it (fragment used by the
validator: strings, ints, floats and null). -/
inductive JVal where
  | str : String → JVal
  | int : Int → JVal
  | float : ℚ → JVal
  | null : JVal
deriving DecidableEq, Repr

/-- A JSON object record: field name to value. -/
structure JRec where
  fields : List (String × JVal)
deriving DecidableEq, Repr

def JRec.get? (r : JRec) (k : String) : Option JVal :=
  (r.fields.find? (fun p => p.1 == k)).map (fun p => p.2)

/-- `str(v).isdigit()`: for a string the direct test; `str` of an int
is its decimal rendering (digits only when non-negative); `str` of a
float always contains a dot or letter, and `str(None) = "None"`. -/
def valIsdigitStr : JVal → Bool
  | .str s => pyIsdigit s
  | .int n => pyIsdigit (toString n)
  | .float _ => false
  | .null => false

/-- `float(v)`: succeeds on ints, floats and parsable strings, raises
(`none`) otherwise. -/
def pyFloat? : JVal → Option ℚ
  | .int n => some (n : ℚ)
  | .float q => some q
  | .str s => parseFloatStr? s
  | .null => none

/-- `v.strip()`: only strings have the method, anything else raises. -/
def pyStrip? : JVal → Option String
  | .str s => some (pyTrim s)
  | _ => none

/-- `is_valid_date(v)`: `strptime` raises TypeError on a non-string,
which the bare except inside `is_valid_date` turns into False. -/
def valDateOk : JVal → Bool
  | .str s => is_valid_date s
  | _ => false

/-- The `if` condition of `process_json_records` with Python
short-circuit `or` and exception propagation: `.ok true` means the
condition held (record appended to invalid), `.ok false` means it
failed (record appended to valid), `.error ()` means a rule raised. -/
def checkRecord (r : JRec) : Except Unit Bool :=
  match r.get? "CustomerID" with
  | none => .ok true
  | some cid =>
    if !(valIsdigitStr cid) then .ok true
    else match r.get? "Amount" with
      | none => .ok true
      | some amt =>
        match pyFloat? amt with
        | none => .error ()
        | some q =>
          if q ≤ 0 then .ok true
          else match r.get? "Product" with
            | none => .ok true
            | some prod =>
              match pyStrip? prod with
              | none => .error ()
              | some ps =>
                if ps == "" then .ok true
                else match r.get? "Date" with
                  | none => .ok true
                  | some d => .ok (!(valDateOk d))

/-- A record lands in `valid` iff the condition evaluated to False;
both a True condition and a raised exception append it to `invalid`. -/
def jsonRecordAccepted (r : JRec) : Bool :=
  match checkRecord r with
  | .ok b => !b
  | .error _ => false

/-- `process_json_records`: splits the record list into
(valid, invalid), preserving order. -/
def process_json_records : List JRec → List JRec × List JRec
  | [] => ([], [])
  | r :: rest =>
    let vi := process_json_records rest
    if jsonRecordAccepted r then (r :: vi.1, vi.2) else (vi.1, r :: vi.2)

/-- Spec-side validity for claim C8 (amended): CustomerID numeric,
Amount a positive number, Product a non-blank string, Date a string in
the (lenient) year-month-day format accepted by `strptime`. -/
def specJsonValid (r : JRec) : Bool :=
  (match r.get? "CustomerID" with
   | some v => valIsdigitStr v
   | none => false) &&
  (match r.get? "Amount" with
   | some v => (match pyFloat? v with
     | some q => decide (0 < q)
     | none => false)
   | none => false) &&
  (match r.get? "Product" with
   | some (.str s) => !(pyTrim s == "")
   | _ => false) &&
  (match r.get? "Date" with
   | some (.str s) => is_valid_date s
   | _ => false)

/-! ### CSV feedback rows (`process_csv_records`, lines 97–114) -/

/-- One `csv.DictReader` row with the three columns the validator
reads (all cell values are strings). -/
structure CsvRow where
  CustomerID : String
  Rating : String
  Feedback : String
deriving DecidableEq, Repr

/-- The `if` condition of the CSV loop: non-digit CustomerID short
circuits first; `int(row["Rating"])` raising lands the row in
`invalid` through the bare except. -/
def csvRowInvalid (r : CsvRow) : Bool :=
  !(pyIsdigit r.CustomerID) ||
  (match pyInt? r.Rating with
   | none => true
   | some n => decide (n < 1) || decide (5 < n) || pyTrim r.Feedback == "")

/-- The partition the loop of `process_csv_records` builds into its
local lists `valid` and `invalid`, preserving order. -/
def csv_partition : List CsvRow → List CsvRow × List CsvRow
  | [] => ([], [])
  | r :: rest =>
    let vi := csv_partition rest
    if csvRowInvalid r then (vi.1, r :: vi.2) else (r :: vi.1, vi.2)

/-- `process_csv_records` as written: the loop fills the local lists
(`csv_partition`) but the function body has no return statement, so
the call evaluates to Python `None` — modelled as `none`. -/
def process_csv_records (rows : List CsvRow) : Option (List CsvRow × List CsvRow) :=
  let _lists := csv_partition rows
  none

/-! ### Sentiment enrichment (glue_job.py lines 112–163)

`batch_sentiment` runs once per Spark partition: it materialises the
partition, returns immediately when it is empty, builds one composite
prompt with a `- feedback` line per row, performs a single model
invocation, splits the stripped response text on newlines and zips the
rows with the response lines (Python `zip` truncates to the shorter
side), classifying each line by case-insensitive keyword containment
with priority positive, then negative, then neutral. -/

/-- A consolidated row as the mapped partition sees it: the two fields
`batch_sentiment` reads. -/
structure C360Row where
  CustomerID : String
  Feedback : String
deriving DecidableEq, Repr

/-- Keyword containment test, `kw in line.lower()`. -/
def kwIn (kw line : String) : Bool :=
  containsSub kw (pyLower line)

/-- The per-line classification of the loop body: priority order
positive, negative, neutral, else Unknown. -/
def classify_line (line : String) : String :=
  if kwIn "positive" line then "Positive"
  else if kwIn "negative" line then "Negative"
  else if kwIn "neutral" line then "Neutral"
  else "Unknown"

/-- The composite prompt: header plus one `- feedback` line appended
per row, via the fold of the Python loop. -/
def build_prompt (feedbacks : List String) : String :=
  feedbacks.foldl (fun p fb => p ++ "- " ++ fb ++ "\n")
    "Classify sentiment (Positive / Negative / Neutral) for each line:\n\n"

/-- The item lines of the prompt, one per feedback, in order (used to
state that the request contains one line per row). -/
def promptBody : List String → String
  | [] => ""
  | fb :: rest => "- " ++ fb ++ "\n" ++ promptBody rest

/-- `result["text"].strip().split("\n")`. -/
def parse_response (resp : String) : List String :=
  pySplit '\n' (pyTrim resp)

/-- `batch_sentiment` for one partition, with the classification
service response text as an input: returns the request issued (`none`
when the empty partition returns before invoking the service) and the
emitted `(CustomerID, sentiment)` pairs. -/
def batch_sentiment (batch : List C360Row) (resp : String) :
    Option String × List (String × String) :=
  if batch.isEmpty then (none, [])
  else
    let prompt := build_prompt (batch.map (fun r => r.Feedback))
    let text_output := parse_response resp
    (some prompt,
     (batch.zip text_output).map (fun rl => (rl.1.CustomerID, classify_line rl.2)))

/-- `customer360_df.join(sentiment_df, "CustomerID", "left")` restricted
to the sentiment column: each row keeps every matching sentiment pair,
or a null sentiment when no pair has its CustomerID. -/
def left_join_sentiment (rows : List C360Row) (pairs : List (String × String)) :
    List (C360Row × Option String) :=
  rows.flatMap (fun r =>
    match pairs.filter (fun p => p.1 == r.CustomerID) with
    | [] => [(r, none)]
    | q :: qs => (q :: qs).map (fun p => (r, some p.2)))

/-! ### The consolidation run lifecycle (glue_job.py top level)

The script runs a straight-line sequence: write the RUNNING tracking
item, load the three datasets, deduplicate, join and aggregate,
enrich with sentiment, write the profile table, update the tracking
item to SUCCESS.  There is no try/except anywhere in the script, so an
exception at any step stops execution there and the remaining effects
never happen. -/

inductive GlueStatus where
  | running
  | success
  | failed
deriving DecidableEq, Repr

inductive GlueStep where
  | putRunning
  | loadData
  | dedup
  | joinAndAggregate
  | sentimentEnrich
  | writeProfile
  | updateSuccess
deriving DecidableEq, Repr

/-- The steps of glue_job.py in program order. -/
def glueSteps : List GlueStep :=
  [.putRunning, .loadData, .dedup, .joinAndAggregate, .sentimentEnrich,
   .writeProfile, .updateSuccess]

/-- Observable state of a run: the tracking record status for this
run's job_id (none before the put) and whether the final profile
dataset was written. -/
structure GlueState where
  trackStatus : Option GlueStatus
  profileWritten : Bool
deriving DecidableEq, Repr

def applyStep (s : GlueState) : GlueStep → GlueState
  | .putRunning => { s with trackStatus := some .running }
  | .writeProfile => { s with profileWritten := true }
  | .updateSuccess => { s with trackStatus := some .success }
  | _ => s

/-- Execute the steps in order; a step at which `failAt` holds raises,
and with no handler in the script the run stops with the state
accumulated so far. -/
def runGlue : List GlueStep → (GlueStep → Bool) → GlueState → GlueState
  | [], _, s => s
  | st :: rest, failAt, s =>
    if failAt st then s else runGlue rest failAt (applyStep s st)

/-- The state before the job starts. -/
def glueInit : GlueState :=
  { trackStatus := none, profileWritten := false }

/-! ### The validation stage (lambda_function.py `lambda_handler`)

The object store is an association list from key to parsed file
content; `put_object` overwrites.  File bodies are modelled at the
record level: the JSON/XML/CSV serialisation the handler writes is
read back by the same parser in the rescan, and for these formats the
dump/parse round trip is the identity on the record lists.

An invocation that raises an uncaught exception — unpacking the `None`
returned by `process_csv_records` (line 162 and lines 190/208), or a
parser failure on a file whose content does not match its extension —
is modelled as `none`: it writes nothing further and never reaches the
trigger.  The early `return` on a failed object read is folded into
the same `none` (it, too, writes nothing and never triggers). -/

/-- Parsed content of one stored object. -/
inductive FileContent where
  | xml : List Customer → FileContent
  | json : List JRec → FileContent
  | csv : List CsvRow → FileContent
deriving DecidableEq, Repr

/-- The S3 bucket: key to content, unique keys maintained by `put`. -/
abbrev S3Store := List (String × FileContent)

def storeGet (s : S3Store) (k : String) : Option FileContent :=
  (s.find? (fun p => p.1 == k)).map (fun p => p.2)

/-- `put_object`: create or overwrite. -/
def storePut (s : S3Store) (k : String) (c : FileContent) : S3Store :=
  (k, c) :: s.filter (fun p => !(p.1 == k))

/-- `key.replace("raw/", "validated/")`. -/
def validKey (k : String) : String :=
  pyReplace k "raw/" "validated/"

/-- `key.replace("raw/", "error/")`. -/
def errorKey (k : String) : String :=
  pyReplace k "raw/" "error/"

/-- The two conditional partition writes of lines 143–150 (and their
JSON/CSV counterparts): each non-empty side — passed as `some`
serialised content — is put at its derived key, valid side first. -/
def writePartitionObjs (key : String) (store : S3Store)
    (vObj iObj : Option FileContent) : S3Store :=
  let s1 := match vObj with
    | none => store
    | some c => storePut store (validKey key) c
  match iObj with
  | none => s1
  | some c => storePut s1 (errorKey key) c

/-- Lines 141–176: dispatch on the key extension, partition the
records, write each non-empty side to its derived key, and return the
new store plus this file's valid/invalid counts.  `none` is an
uncaught exception: the CSV branch unpacks the `None` returned by
`process_csv_records`, and a content/extension mismatch is a parser
failure.  A key matching no extension runs no branch. -/
def handleCurrent (key : String) (c : FileContent) (store : S3Store) :
    Option (S3Store × Nat × Nat) :=
  if strEnds ".xml" key then
    match c with
    | .xml custs =>
      let vi := process_xml_records custs
      some (writePartitionObjs key store
              (if vi.1.isEmpty then none else some (.xml vi.1))
              (if vi.2.isEmpty then none else some (.xml vi.2)),
            vi.1.length, vi.2.length)
    | _ => none
  else if strEnds ".json" key then
    match c with
    | .json recs =>
      let vi := process_json_records recs
      some (writePartitionObjs key store
              (if vi.1.isEmpty then none else some (.json vi.1))
              (if vi.2.isEmpty then none else some (.json vi.2)),
            vi.1.length, vi.2.length)
    | _ => none
  else if strEnds ".csv" key then
    match c with
    | .csv rows =>
      match process_csv_records rows with
      | none => none
      | some vi =>
        some (writePartitionObjs key store
                (if vi.1.isEmpty then none else some (.csv vi.1))
                (if vi.2.isEmpty then none else some (.csv vi.2)),
              vi.1.length, vi.2.length)
    | _ => none
  else
    some (store, 0, 0)

/-- The body of the first rescan loop (lines 185–194) for one object:
valid-record count of the re-validated content, `none` on a crash
(CSV unpack of `None`, or content/extension mismatch), and 0 for the
`continue` on an unknown extension. -/
def countValidObj (k : String) (c : FileContent) : Option Nat :=
  if strEnds ".xml" k then
    match c with
    | .xml l => some (process_xml_records l).1.length
    | _ => none
  else if strEnds ".json" k then
    match c with
    | .json l => some (process_json_records l).1.length
    | _ => none
  else if strEnds ".csv" k then none
  else some 0

/-- The body of the second rescan loop (lines 203–212): invalid-record
counts under the `error/` listing. -/
def countErrorObj (k : String) (c : FileContent) : Option Nat :=
  if strEnds ".xml" k then
    match c with
    | .xml l => some (process_xml_records l).2.length
    | _ => none
  else if strEnds ".json" k then
    match c with
    | .json l => some (process_json_records l).2.length
    | _ => none
  else if strEnds ".csv" k then none
  else some 0

/-- Lines 178–194: `list_objects_v2(Prefix="validated/")` then re-read
and re-validate every listed object, summing the valid counts; a crash
on any object aborts the whole invocation. -/
def rescanValid : S3Store → Option Nat
  | [] => some 0
  | (k, c) :: rest =>
    if strStarts "validated/" k then do
      let n ← countValidObj k c
      let m ← rescanValid rest
      pure (n + m)
    else rescanValid rest

/-- Lines 196–212: the same rescan over the `error/` listing, summing
the invalid counts. -/
def rescanError : S3Store → Option Nat
  | [] => some 0
  | (k, c) :: rest =>
    if strStarts "error/" k then do
      let n ← countErrorObj k c
      let m ← rescanError rest
      pure (n + m)
    else rescanError rest

/-- The Data Quality Score of lines 215–219:
`(total_valid / (total_valid + total_invalid)) * 100` when any records
were counted, else 0. -/
def dq_score (total_valid total_invalid : Nat) : ℚ :=
  if 0 < total_valid + total_invalid then
    ((total_valid : ℚ) / ((total_valid : ℚ) + (total_invalid : ℚ))) * 100
  else 0

/-- What one invocation of `lambda_handler` leaves behind: the store
after the partition writes, both totals, the reported score and
whether `glue.start_job_run` was called (line 225: iff
`total_valid > 0`). -/
structure HandlerResult where
  store : S3Store
  total_valid : Nat
  total_invalid : Nat
  dq : ℚ
  glueStarted : Bool
deriving Repr

/-- `lambda_handler` for the event naming `key`: read the object,
partition and write, rescan both prefixes, compute the score and
decide the trigger.  `none` covers the early return on a failed object
read and every uncaught exception; both write nothing beyond the point
of failure and never start the job. -/
def lambda_handler (key : String) (store : S3Store) : Option HandlerResult := do
  let c ← storeGet store key
  let svi ← handleCurrent key c store
  let hv ← rescanValid svi.1
  let hi ← rescanError svi.1
  let tv := svi.2.1 + hv
  let ti := svi.2.2 + hi
  pure
    { store := svi.1
      total_valid := tv
      total_invalid := ti
      dq := dq_score tv ti
      glueStarted := decide (0 < tv) }

/-! ### Shared helper lemmas -/

theorem filter_idem {α} (p : α → Bool) (l : List α) :
    (l.filter p).filter p = l.filter p := by
  induction l with
  | nil => rfl
  | cons a t ih =>
    by_cases h : p a = true
    · simp [List.filter_cons, h, ih]
    · simp only [Bool.not_eq_true] at h
      simp [List.filter_cons, h, ih]

theorem filter_comm {α} (p q : α → Bool) (l : List α) :
    (l.filter p).filter q = (l.filter q).filter p := by
  induction l with
  | nil => rfl
  | cons a t ih =>
    by_cases hp : p a = true <;> by_cases hq : q a = true <;>
      simp_all [List.filter_cons]

theorem filter_not_of_filter {α} (p : α → Bool) (l : List α) :
    (l.filter p).filter (fun a => !(p a)) = [] := by
  induction l with
  | nil => rfl
  | cons a t ih =>
    by_cases h : p a = true <;> simp_all [List.filter_cons]

theorem process_xml_records_eq_filter (l : List Customer) :
    process_xml_records l =
      (l.filter xmlCustomerValid, l.filter (fun c => !(xmlCustomerValid c))) := by
  induction l with
  | nil => rfl
  | cons c rest ih =>
    by_cases h : xmlCustomerValid c = true <;>
      simp_all [process_xml_records, List.filter_cons]

theorem process_json_records_eq_filter (l : List JRec) :
    process_json_records l =
      (l.filter jsonRecordAccepted, l.filter (fun r => !(jsonRecordAccepted r))) := by
  induction l with
  | nil => rfl
  | cons c rest ih =>
    by_cases h : jsonRecordAccepted c = true <;>
      simp_all [process_json_records, List.filter_cons]

/-- Accepted records re-validate as accepted: the valid side is a fixed
point of JSON re-processing. -/
theorem process_json_valid_roundtrip (l : List JRec) :
    process_json_records (process_json_records l).1 = ((process_json_records l).1, []) := by
  simp [process_json_records_eq_filter, filter_idem, filter_not_of_filter]

/-- Rejected records re-validate as rejected. -/
theorem process_json_invalid_roundtrip (l : List JRec) :
    process_json_records (process_json_records l).2 = ([], (process_json_records l).2) := by
  have h1 := process_json_records_eq_filter l
  have h2 := process_json_records_eq_filter (l.filter (fun r => !(jsonRecordAccepted r)))
  rw [h1, h2]
  simp only [Prod.mk.injEq]
  constructor
  · have := filter_not_of_filter (fun r => !(jsonRecordAccepted r)) l
    calc (l.filter (fun r => !(jsonRecordAccepted r))).filter jsonRecordAccepted
        = (l.filter (fun r => !(jsonRecordAccepted r))).filter
            (fun r => !(!(jsonRecordAccepted r))) := by
          apply List.filter_congr
          intro a _
          simp
      _ = [] := filter_not_of_filter (fun r => !(jsonRecordAccepted r)) l
  · exact filter_idem (fun r => !(jsonRecordAccepted r)) l

theorem process_xml_valid_roundtrip (l : List Customer) :
    process_xml_records (process_xml_records l).1 = ((process_xml_records l).1, []) := by
  simp [process_xml_records_eq_filter, filter_idem, filter_not_of_filter]

theorem process_xml_invalid_roundtrip (l : List Customer) :
    process_xml_records (process_xml_records l).2 = ([], (process_xml_records l).2) := by
  have h1 := process_xml_records_eq_filter l
  have h2 := process_xml_records_eq_filter (l.filter (fun c => !(xmlCustomerValid c)))
  rw [h1, h2]
  simp only [Prod.mk.injEq]
  constructor
  · calc (l.filter (fun c => !(xmlCustomerValid c))).filter xmlCustomerValid
        = (l.filter (fun c => !(xmlCustomerValid c))).filter
            (fun c => !(!(xmlCustomerValid c))) := by
          apply List.filter_congr
          intro a _
          simp
      _ = [] := filter_not_of_filter (fun c => !(xmlCustomerValid c)) l
  · exact filter_idem (fun c => !(xmlCustomerValid c)) l

/-! ### Claim C6 — quality score formula -/

/-- C6: for all non-negative counts the quality score equals
100 × accepted / (accepted + rejected) when accepted + rejected > 0 and
0 when both counts are 0; in particular the score at (18, 2) is 90 and
at (0, 0) is 0. -/
theorem dq_score_formula (a b : Nat) :
    (0 < a + b → dq_score a b = 100 * (a : ℚ) / ((a : ℚ) + (b : ℚ))) ∧
    (a = 0 → b = 0 → dq_score a b = 0) ∧
    dq_score 18 2 = 90 ∧ dq_score 0 0 = 0 := by
  refine ⟨?_, ?_, ?_, ?_⟩
  · intro h
    rw [dq_score, if_pos h]
    ring
  · intro ha hb
    subst ha
    subst hb
    norm_num [dq_score]
  · norm_num [dq_score]
  · norm_num [dq_score]

theorem dq_score_formula_witness :
    (0 < 18 + 2 ∧ dq_score 18 2 = 100 * (18 : ℚ) / ((18 : ℚ) + (2 : ℚ))) ∧
    dq_score 0 0 = 0 :=
  ⟨⟨by norm_num, (dq_score_formula 18 2).1 (by norm_num)⟩,
   (dq_score_formula 0 0).2.1 rfl rfl⟩

/-! ### Claim C1 — the CSV validator never returns its partition -/

def c1Row5 : CsvRow := ⟨"1", "5", "good feedback"⟩

def c1Row6 : CsvRow := ⟨"2", "6", "bad rating"⟩

/-- C1: the claim says `process_csv_records` returns the
(accepted, rejected) partition of the rows.  The function body builds
exactly that partition into its local lists — the row with Rating=6
rejected, the row with Rating=5 accepted — but has no return
statement, so every call returns Python `None` and the caller's
unpacking raises; the claimed return value never exists. -/
theorem process_csv_records_no_return :
    (∀ rows : List CsvRow, process_csv_records rows = none) ∧
    csv_partition [c1Row5, c1Row6] = ([c1Row5], [c1Row6]) := by
  exact ⟨fun _ => rfl, by decide⟩

/-! ### Claim C3 — consolidation failure handling -/

/-- C3 counterexample: a run whose join/aggregate step raises stops
with the tracking record still RUNNING — not FAILED as the claim
states (glue_job.py has no handler that writes FAILED). -/
theorem glue_join_failure_not_failed :
    runGlue glueSteps (fun st => st == GlueStep.joinAndAggregate) glueInit =
      { trackStatus := some .running, profileWritten := false } ∧
    some GlueStatus.running ≠ some GlueStatus.failed := by
  decide

/-- C3 amended: an exception at any consolidation step (load, dedup,
join/aggregate, enrichment, or the profile write itself) aborts the
run with no profile write — no partial commit — but the RunRecord is
left in status RUNNING forever; it is never updated to FAILED. -/
theorem glue_failure_aborts_without_failed (fs : GlueStep)
    (h : fs ∈ [GlueStep.loadData, GlueStep.dedup, GlueStep.joinAndAggregate,
               GlueStep.sentimentEnrich, GlueStep.writeProfile]) :
    runGlue glueSteps (fun st => st == fs) glueInit =
      { trackStatus := some .running, profileWritten := false } := by
  fin_cases h <;> decide

theorem glue_failure_aborts_without_failed_witness :
    runGlue glueSteps (fun st => st == GlueStep.sentimentEnrich) glueInit =
      { trackStatus := some .running, profileWritten := false } :=
  glue_failure_aborts_without_failed GlueStep.sentimentEnrich (by decide)

/-! ### Claim C7 — XML customer classification -/

theorem cid_code_eq_spec (t : String) :
    (!(t == "") && pyIsdigit (pyTrim t)) =
      !(fieldBlank ⟨some t⟩ || !(fieldNumeric ⟨some t⟩)) := by
  by_cases h : pyTrim t = ""
  · have hd : pyIsdigit (pyTrim t) = false := by rw [h]; rfl
    have he : pyIsdigit "" = false := rfl
    simp [fieldBlank, fieldNumeric, h, hd, he]
  · have ht : ¬(t = "") := by
      intro h0
      apply h
      rw [h0]
      rfl
    have h1 : (t == "") = false := by simp [ht]
    have h2 : (pyTrim t == "") = false := by simp [h]
    simp [fieldBlank, fieldNumeric, h1, h2]

theorem txt_code_eq_spec (t : String) :
    (!(t == "") && !(pyTrim t == "")) = !(fieldBlank ⟨some t⟩) := by
  by_cases h : pyTrim t = ""
  · simp [fieldBlank, h]
  · have ht : ¬(t = "") := by
      intro h0
      apply h
      rw [h0]
      rfl
    have h1 : (t == "") = false := by simp [ht]
    have h2 : (pyTrim t == "") = false := by simp [h]
    simp [fieldBlank, h, h1, h2]

/-- The loop's validity test agrees with the spec-side rejection
predicate: valid exactly when not spec-rejected. -/
theorem xmlValid_eq_not_rejected (c : Customer) :
    xmlCustomerValid c = !(specCustomerRejected c) := by
  obtain ⟨cid, nm, ct⟩ := c
  rcases cid with _ | ⟨⟨t1⟩⟩
  · simp [xmlCustomerValid, specCustomerRejected]
  rcases nm with _ | ⟨⟨t2⟩⟩
  · simp [xmlCustomerValid, specCustomerRejected]
  rcases ct with _ | ⟨⟨t3⟩⟩
  · simp [xmlCustomerValid, specCustomerRejected]
  rcases t1 with _ | s1
  · simp [xmlCustomerValid, specCustomerRejected, fieldBlank]
  rcases t2 with _ | s2
  · simp [xmlCustomerValid, specCustomerRejected, fieldBlank]
  rcases t3 with _ | s3
  · simp [xmlCustomerValid, specCustomerRejected, fieldBlank]
  simp only [xmlCustomerValid]
  rw [cid_code_eq_spec s1, txt_code_eq_spec s2, txt_code_eq_spec s3]
  simp [specCustomerRejected, Bool.not_or, Bool.and_assoc]

/-- C7: `process_xml_records` classifies a customer record rejected iff
the CustomerID, Name, or City element is missing, or its text is blank,
or the CustomerID text is not numeric; every other record is accepted. -/
theorem xml_classification_iff (cs : List Customer) (c : Customer) :
    (c ∈ (process_xml_records cs).2 ↔ c ∈ cs ∧ specCustomerRejected c = true) ∧
    (c ∈ (process_xml_records cs).1 ↔ c ∈ cs ∧ specCustomerRejected c = false) := by
  rw [process_xml_records_eq_filter]
  constructor
  · simp [List.mem_filter, xmlValid_eq_not_rejected]
  · simp [List.mem_filter, xmlValid_eq_not_rejected]

/-! ### Claim C8 — JSON purchase classification and error handling -/

/-- The short-circuit, exception-propagating evaluation of the JSON
rule chain agrees with the clean conjunction of the four rules; in
particular every evaluation that raises yields a rejected record. -/
theorem jsonAccepted_eq_spec (r : JRec) : jsonRecordAccepted r = specJsonValid r := by
  cases hc : r.get? "CustomerID" with
  | none => simp [jsonRecordAccepted, checkRecord, specJsonValid, hc]
  | some cid =>
    by_cases h1 : valIsdigitStr cid = true
    swap
    · have h1f : valIsdigitStr cid = false := by
        revert h1
        cases valIsdigitStr cid <;> simp
      simp [jsonRecordAccepted, checkRecord, specJsonValid, hc, h1f]
    cases ha : r.get? "Amount" with
    | none => simp [jsonRecordAccepted, checkRecord, specJsonValid, hc, ha, h1]
    | some amt =>
      cases hf : pyFloat? amt with
      | none => simp [jsonRecordAccepted, checkRecord, specJsonValid, hc, ha, hf, h1]
      | some q =>
        by_cases hq : q ≤ 0
        · have hq2 : ¬(0 < q) := not_lt.mpr hq
          simp [jsonRecordAccepted, checkRecord, specJsonValid, hc, ha, hf, h1, hq, hq2]
        · have hq2 : 0 < q := not_le.mp hq
          cases hp : r.get? "Product" with
          | none => simp [jsonRecordAccepted, checkRecord, specJsonValid, hc, ha, hf, h1, hq, hq2, hp]
          | some prod =>
            cases prod with
            | str s =>
              by_cases hs : pyTrim s = ""
              · simp [jsonRecordAccepted, checkRecord, specJsonValid, pyStrip?, hc, ha, hf, h1, hq, hq2, hp, hs]
              · have hs2 : (pyTrim s == "") = false := by simp [hs]
                cases hd : r.get? "Date" with
                | none => simp [jsonRecordAccepted, checkRecord, specJsonValid, pyStrip?, hc, ha, hf, h1, hq, hq2, hp, hs2, hd]
                | some d =>
                  cases d <;>
                    simp [jsonRecordAccepted, checkRecord, specJsonValid, pyStrip?, valDateOk,
                      hc, ha, hf, h1, hq, hq2, hp, hs2, hd]
            | int n =>
              simp [jsonRecordAccepted, checkRecord, specJsonValid, pyStrip?, hc, ha, hf, h1, hq, hq2, hp]
            | float q2 =>
              simp [jsonRecordAccepted, checkRecord, specJsonValid, pyStrip?, hc, ha, hf, h1, hq, hq2, hp]
            | null =>
              simp [jsonRecordAccepted, checkRecord, specJsonValid, pyStrip?, hc, ha, hf, h1, hq, hq2, hp]

/-- C8 amended: a JSON purchase record is accepted iff its CustomerID
is numeric, its Amount parses as a positive number, its Product is a
non-blank string and its Date is a string in the year-month-day format
accepted by `strptime` (month and day may be one or two digits); every
record whose rule evaluation raises is classified rejected, and the
validator is total over the record list — it never throws across
record boundaries. -/
theorem json_classification_spec (recs : List JRec) (r : JRec) :
    (r ∈ (process_json_records recs).1 ↔ r ∈ recs ∧ specJsonValid r = true) ∧
    (r ∈ (process_json_records recs).2 ↔ r ∈ recs ∧ specJsonValid r = false) ∧
    (checkRecord r = .error () → r ∈ recs → r ∈ (process_json_records recs).2) := by
  rw [process_json_records_eq_filter]
  refine ⟨?_, ?_, ?_⟩
  · simp [List.mem_filter, jsonAccepted_eq_spec]
  · simp [List.mem_filter, jsonAccepted_eq_spec]
  · intro herr hmem
    have hrej : jsonRecordAccepted r = false := by
      unfold jsonRecordAccepted
      rw [herr]
    simp [List.mem_filter, hmem, hrej]

def c8ErrRec : JRec := ⟨[("CustomerID", .str "9"), ("Amount", .str "abc")]⟩

theorem json_classification_spec_witness :
    checkRecord c8ErrRec = .error () ∧ c8ErrRec ∈ (process_json_records [c8ErrRec]).2 :=
  ⟨rfl, (json_classification_spec [c8ErrRec] c8ErrRec).2.2 rfl (by decide)⟩

def c8LenientRec : JRec :=
  ⟨[("CustomerID", .str "7"), ("Amount", .int 5), ("Product", .str "X"), ("Date", .str "2024-1-1")]⟩

/-- C8 counterexample: the record with Date `2024-1-1` is accepted by
the validator although `2024-1-1` does not match the strict
`YYYY-MM-DD` pattern of the claim (`strptime("%Y-%m-%d")` also accepts
one-digit month and day). -/
theorem json_lenient_date_cex :
    c8LenientRec ∈ (process_json_records [c8LenientRec]).1 ∧
    c8LenientRec.get? "Date" = some (.str "2024-1-1") ∧
    strictDateFormat "2024-1-1" = false := by
  refine ⟨by decide, rfl, by decide⟩

/-! ### Claim C5 — the sentiment enrichment protocol -/

theorem strAppend_assoc (a b c : String) : a ++ b ++ c = a ++ (b ++ c) := by
  apply String.ext
  simp

theorem strAppend_empty (a : String) : a ++ "" = a := by
  apply String.ext
  simp

theorem foldl_prompt (fbs : List String) (acc : String) :
    fbs.foldl (fun p fb => p ++ "- " ++ fb ++ "\n") acc = acc ++ promptBody fbs := by
  induction fbs generalizing acc with
  | nil => simp [promptBody, strAppend_empty]
  | cons fb rest ih =>
    simp only [List.foldl_cons, promptBody, ih]
    simp [strAppend_assoc]

theorem zip_map_getElem {α β γ} (f : α × β → γ) (l1 : List α) (l2 : List β) (i : Nat)
    (a : α) (b : β) (h1 : l1[i]? = some a) (h2 : l2[i]? = some b) :
    ((l1.zip l2).map f)[i]? = some (f (a, b)) := by
  induction l1 generalizing l2 i with
  | nil => simp at h1
  | cons x xs ih =>
    cases l2 with
    | nil => simp at h2
    | cons y ys =>
      cases i with
      | zero =>
        simp only [List.getElem?_cons_zero, Option.some.injEq] at h1 h2
        subst h1
        subst h2
        simp [List.zip_cons_cons]
      | succ n =>
        simp only [List.getElem?_cons_succ] at h1 h2
        simp [List.zip_cons_cons, ih ys n h1 h2]

/-- C5: for a non-empty partition `batch_sentiment` issues exactly one
request whose body is one `- feedback` line per row in order; for an
empty partition it issues none; the emitted pairs are the positional
zip of rows with response lines, truncated to the shorter side; and a
response line containing exactly one of the keywords (case
insensitively) is labelled with it, a line containing none is labelled
Unknown. -/
theorem batch_sentiment_protocol (batch : List C360Row) (resp : String) :
    (batch = [] → batch_sentiment batch resp = (none, [])) ∧
    (batch ≠ [] →
      (batch_sentiment batch resp).1 =
        some (build_prompt (batch.map (fun r => r.Feedback)))) ∧
    (∀ fbs : List String,
      build_prompt fbs =
        "Classify sentiment (Positive / Negative / Neutral) for each line:\n\n" ++ promptBody fbs) ∧
    (batch_sentiment batch resp).2.length = min batch.length (parse_response resp).length ∧
    (∀ (i : Nat) (row : C360Row) (line : String),
      batch[i]? = some row → (parse_response resp)[i]? = some line →
      (batch_sentiment batch resp).2[i]? = some (row.CustomerID, classify_line line)) ∧
    (∀ l : String,
      (kwIn "positive" l = true → kwIn "negative" l = false → kwIn "neutral" l = false →
        classify_line l = "Positive") ∧
      (kwIn "positive" l = false → kwIn "negative" l = true → kwIn "neutral" l = false →
        classify_line l = "Negative") ∧
      (kwIn "positive" l = false → kwIn "negative" l = false → kwIn "neutral" l = true →
        classify_line l = "Neutral") ∧
      (kwIn "positive" l = false → kwIn "negative" l = false → kwIn "neutral" l = false →
        classify_line l = "Unknown")) := by
  refine ⟨?_, ?_, ?_, ?_, ?_, ?_⟩
  · intro h
    subst h
    rfl
  · intro h
    cases batch with
    | nil => exact absurd rfl h
    | cons b bs => rfl
  · intro fbs
    exact foldl_prompt fbs _
  · cases batch with
    | nil => simp [batch_sentiment]
    | cons b bs =>
      show (((b :: bs).zip (parse_response resp)).map
        (fun rl => (rl.1.CustomerID, classify_line rl.2))).length = _
      simp
  · intro i row line h1 h2
    cases batch with
    | nil => simp at h1
    | cons b bs =>
      show (((b :: bs).zip (parse_response resp)).map
        (fun rl => (rl.1.CustomerID, classify_line rl.2)))[i]? = _
      exact zip_map_getElem _ (b :: bs) (parse_response resp) i row line h1 h2
  · intro l
    refine ⟨?_, ?_, ?_, ?_⟩ <;> intro hp hn hu <;> simp [classify_line, hp, hn, hu]

def c5Batch : List C360Row := [⟨"1", "great"⟩, ⟨"2", "terrible"⟩]

theorem batch_sentiment_protocol_witness :
    ((c5Batch : List C360Row) ≠ [] ∧
      (batch_sentiment c5Batch "Positive\nNegative").1 =
        some (build_prompt (c5Batch.map (fun r => r.Feedback)))) ∧
    (batch_sentiment c5Batch "Positive\nNegative").2[0]? = some ("1", classify_line "Positive") ∧
    (batch_sentiment c5Batch "Positive\nNegative").2[1]? = some ("2", classify_line "Negative") ∧
    classify_line "Positive" = "Positive" ∧
    classify_line "Negative" = "Negative" ∧
    batch_sentiment [] "ignored" = (none, []) := by
  have h := batch_sentiment_protocol c5Batch "Positive\nNegative"
  have h0 := batch_sentiment_protocol ([] : List C360Row) "ignored"
  refine ⟨⟨by decide, h.2.1 (by decide)⟩, ?_, ?_, ?_, ?_, h0.1 rfl⟩
  · exact h.2.2.2.2.1 0 ⟨"1", "great"⟩ "Positive" rfl rfl
  · exact h.2.2.2.2.1 1 ⟨"2", "terrible"⟩ "Negative" rfl rfl
  · exact (h.2.2.2.2.2 "Positive").1 (by decide) (by decide) (by decide)
  · exact (h.2.2.2.2.2 "Negative").2.1 (by decide) (by decide) (by decide)

/-! ### Claim C4 — the Sentiment field after the left join -/

theorem classify_line_mem_labels (l : String) :
    classify_line l ∈ (["Positive", "Negative", "Neutral", "Unknown"] : List String) := by
  unfold classify_line
  by_cases h1 : kwIn "positive" l = true
  · simp [h1]
  · simp only [Bool.not_eq_true] at h1
    by_cases h2 : kwIn "negative" l = true
    · simp [h1, h2]
    · simp only [Bool.not_eq_true] at h2
      by_cases h3 : kwIn "neutral" l = true
      · simp [h1, h2, h3]
      · simp only [Bool.not_eq_true] at h3
        simp [h1, h2, h3]

theorem batch_sentiment_pairs_label (batch : List C360Row) (resp : String) (p : String × String)
    (hp : p ∈ (batch_sentiment batch resp).2) :
    p.2 ∈ (["Positive", "Negative", "Neutral", "Unknown"] : List String) := by
  cases batch with
  | nil => simp [batch_sentiment] at hp
  | cons b bs =>
    have hp2 : p ∈ ((b :: bs).zip (parse_response resp)).map
        (fun rl => (rl.1.CustomerID, classify_line rl.2)) := hp
    rcases List.mem_map.mp hp2 with ⟨rl, _, heq⟩
    rw [← heq]
    exact classify_line_mem_labels rl.2

/-- C4 amended: after the left join every row's Sentiment is either
one of the four labels (when some classification pair carries its
CustomerID) or null — null occurring exactly when no pair has the
row's CustomerID, as happens to the rows beyond a truncated response.
The claim's `never null' does not hold. -/
theorem sentiment_label_or_null (rows : List C360Row) (resp : String)
    (r : C360Row) (s : Option String)
    (hmem : (r, s) ∈ left_join_sentiment rows (batch_sentiment rows resp).2) :
    (s = none ∧ ∀ p ∈ (batch_sentiment rows resp).2, ¬ p.1 = r.CustomerID) ∨
    (∃ lbl, s = some lbl ∧ lbl ∈ (["Positive", "Negative", "Neutral", "Unknown"] : List String)) := by
  unfold left_join_sentiment at hmem
  rcases List.mem_flatMap.mp hmem with ⟨a, hamem, hblock⟩
  cases hfil : (batch_sentiment rows resp).2.filter (fun p => p.1 == a.CustomerID) with
  | nil =>
    rw [hfil] at hblock
    simp only [List.mem_singleton, Prod.mk.injEq] at hblock
    left
    refine ⟨hblock.2, ?_⟩
    intro p hp hpe
    have hfmem : p ∈ (batch_sentiment rows resp).2.filter (fun pp => pp.1 == a.CustomerID) := by
      refine List.mem_filter.mpr ⟨hp, ?_⟩
      simp [hpe, hblock.1]
    rw [hfil] at hfmem
    simp at hfmem
  | cons q qs =>
    rw [hfil] at hblock
    rcases List.mem_map.mp hblock with ⟨p, hpmem, heq⟩
    right
    have hs : s = some p.2 := by
      have := congrArg Prod.snd heq
      simpa using this.symm
    refine ⟨p.2, hs, ?_⟩
    apply batch_sentiment_pairs_label rows resp p
    have hpf : p ∈ (batch_sentiment rows resp).2.filter (fun pp => pp.1 == a.CustomerID) := by
      rw [hfil]
      exact hpmem
    exact List.mem_of_mem_filter hpf

def c4Rows : List C360Row := [⟨"1", "great"⟩, ⟨"2", "awful"⟩]

/-- C4 counterexample: with two consolidated rows and a one-line
classification response, the second row's Sentiment after the left
join is null, which is not one of the four claimed labels. -/
theorem sentiment_null_after_truncation :
    ((⟨"2", "awful"⟩, (none : Option String)) : C360Row × Option String) ∈
      left_join_sentiment c4Rows (batch_sentiment c4Rows "Positive").2 ∧
    (none : Option String) ∉
      ([some "Positive", some "Negative", some "Neutral", some "Unknown"] : List (Option String)) := by
  refine ⟨by decide, by decide⟩

theorem sentiment_label_or_null_witness :
    (((⟨"2", "awful"⟩ : C360Row), (none : Option String)) ∈
      left_join_sentiment c4Rows (batch_sentiment c4Rows "Positive").2) ∧
    ((none = (none : Option String) ∧
        ∀ p ∈ (batch_sentiment c4Rows "Positive").2, ¬ p.1 = (⟨"2", "awful"⟩ : C360Row).CustomerID) ∨
     (∃ lbl, (none : Option String) = some lbl ∧
        lbl ∈ (["Positive", "Negative", "Neutral", "Unknown"] : List String))) := by
  have hmem : ((⟨"2", "awful"⟩ : C360Row), (none : Option String)) ∈
      left_join_sentiment c4Rows (batch_sentiment c4Rows "Positive").2 := by decide
  exact ⟨hmem, sentiment_label_or_null c4Rows "Positive" ⟨"2", "awful"⟩ none hmem⟩

/-! ### Store lemmas for the validation-stage claims -/

theorem storePut_put_same (s : S3Store) (k : String) (c1 c2 : FileContent) :
    storePut (storePut s k c1) k c2 = storePut s k c2 := by
  unfold storePut
  simp [List.filter_cons, filter_idem]

theorem storePut_reput (s : S3Store) (k1 k2 : String) (c1 c2 c3 : FileContent)
    (h : ¬ k1 = k2) :
    storePut (storePut (storePut s k1 c1) k2 c2) k1 c3 =
      storePut (storePut s k2 c2) k1 c3 := by
  unfold storePut
  have h12 : (k1 == k2) = false := by simp [h]
  have h21 : (k2 == k1) = false := by simp [Ne.symm h]
  simp only [List.filter_cons, h12, h21, beq_self_eq_true, Bool.not_true, Bool.not_false]
  simp [List.filter_cons, filter_idem]
  apply List.filter_congr
  intro a _
  cases ha1 : (a.1 == k1) <;> cases ha2 : (a.1 == k2) <;> simp

theorem find?_filter {α} (q f : α → Bool) (l : List α) (h : ∀ a, q a = true → f a = true) :
    (l.filter f).find? q = l.find? q := by
  induction l with
  | nil => rfl
  | cons a t ih =>
    by_cases hf : f a = true
    · by_cases hq : q a = true
      · simp [List.filter_cons, hf, hq]
      · have hqf : q a = false := by revert hq; cases q a <;> simp
        simp [List.filter_cons, hf, hqf, ih]
    · have hff : f a = false := by revert hf; cases f a <;> simp
      have hqf : q a = false := by
        cases hqa : q a
        · rfl
        · exact absurd (h a hqa) hf
      simp [List.filter_cons, hff, hqf, ih]

theorem storeGet_put_ne (s : S3Store) (k2 k : String) (c : FileContent) (h : ¬ k2 = k) :
    storeGet (storePut s k2 c) k = storeGet s k := by
  unfold storeGet storePut
  have h1 : (k2 == k) = false := by simp [h]
  have h2 : ∀ p : String × FileContent, (p.1 == k) = true → (!(p.1 == k2)) = true := by
    intro p hp
    have hpk : p.1 = k := by simpa using hp
    have hne : ¬ p.1 = k2 := by
      rw [hpk]
      intro hh
      exact h hh.symm
    simp [hne]
  rw [List.find?_cons_of_neg, find?_filter _ _ _ h2]
  simp [h1]

theorem storeGet_writePartitionObjs (key : String) (store : S3Store)
    (vO iO : Option FileContent) (k : String)
    (hv : ¬ validKey key = k) (he : ¬ errorKey key = k) :
    storeGet (writePartitionObjs key store vO iO) k = storeGet store k := by
  cases vO with
  | none =>
    cases iO with
    | none => rfl
    | some ci =>
      show storeGet (storePut store (errorKey key) ci) k = storeGet store k
      exact storeGet_put_ne store (errorKey key) k ci he
  | some cv =>
    cases iO with
    | none =>
      show storeGet (storePut store (validKey key) cv) k = storeGet store k
      exact storeGet_put_ne store (validKey key) k cv hv
    | some ci =>
      show storeGet (storePut (storePut store (validKey key) cv) (errorKey key) ci) k
          = storeGet store k
      rw [storeGet_put_ne _ (errorKey key) k ci he, storeGet_put_ne _ (validKey key) k cv hv]

/-- Re-running the two partition writes with the same side contents is
absorbed: the store is unchanged. -/
theorem writePartitionObjs_absorb (key : String) (store : S3Store) (vO iO : Option FileContent) :
    writePartitionObjs key (writePartitionObjs key store vO iO) vO iO =
      writePartitionObjs key store vO iO := by
  cases vO with
  | none =>
    cases iO with
    | none => rfl
    | some ci =>
      show storePut (storePut store (errorKey key) ci) (errorKey key) ci =
        storePut store (errorKey key) ci
      exact storePut_put_same store (errorKey key) ci ci
  | some cv =>
    cases iO with
    | none =>
      show storePut (storePut store (validKey key) cv) (validKey key) cv =
        storePut store (validKey key) cv
      exact storePut_put_same store (validKey key) cv cv
    | some ci =>
      show storePut (storePut (storePut (storePut store (validKey key) cv) (errorKey key) ci)
              (validKey key) cv) (errorKey key) ci =
          storePut (storePut store (validKey key) cv) (errorKey key) ci
      by_cases h : validKey key = errorKey key
      · rw [h]
        simp [storePut_put_same]
      · rw [storePut_reput store (validKey key) (errorKey key) cv ci cv h,
          storePut_reput store (errorKey key) (validKey key) ci cv ci (Ne.symm h)]

/-! ### Re-running the validation stage -/

theorem branch_again (key : String) (store s2 : S3Store) (vO iO : Option FileContent)
    (hs : writePartitionObjs key store vO iO = s2) :
    writePartitionObjs key s2 vO iO = s2 := by
  rw [← hs, writePartitionObjs_absorb]

theorem handleCurrent_again (key : String) (c : FileContent) (store s2 : S3Store) (vn inn : Nat)
    (h : handleCurrent key c store = some (s2, vn, inn)) :
    handleCurrent key c s2 = some (s2, vn, inn) := by
  unfold handleCurrent at h ⊢
  by_cases hx : strEnds ".xml" key = true
  · rw [if_pos hx] at h ⊢
    cases c with
    | xml custs =>
      simp only [Option.some.injEq, Prod.mk.injEq] at h
      obtain ⟨hs, hv, hi⟩ := h
      show some (writePartitionObjs key s2
          (if (process_xml_records custs).1.isEmpty = true then none
           else some (FileContent.xml (process_xml_records custs).1))
          (if (process_xml_records custs).2.isEmpty = true then none
           else some (FileContent.xml (process_xml_records custs).2)),
          (process_xml_records custs).1.length, (process_xml_records custs).2.length) =
        some (s2, vn, inn)
      rw [branch_again key store s2 _ _ hs, hv, hi]
    | json recs => simp at h
    | csv rows => simp at h
  · have hx2 : ¬ (strEnds ".xml" key = true) := by simp [hx]
    rw [if_neg hx2] at h ⊢
    by_cases hj : strEnds ".json" key = true
    · rw [if_pos hj] at h ⊢
      cases c with
      | json recs =>
        simp only [Option.some.injEq, Prod.mk.injEq] at h
        obtain ⟨hs, hv, hi⟩ := h
        show some (writePartitionObjs key s2
            (if (process_json_records recs).1.isEmpty = true then none
             else some (FileContent.json (process_json_records recs).1))
            (if (process_json_records recs).2.isEmpty = true then none
             else some (FileContent.json (process_json_records recs).2)),
            (process_json_records recs).1.length, (process_json_records recs).2.length) =
          some (s2, vn, inn)
        rw [branch_again key store s2 _ _ hs, hv, hi]
      | xml custs => simp at h
      | csv rows => simp at h
    · have hj2 : ¬ (strEnds ".json" key = true) := by simp [hj]
      rw [if_neg hj2] at h ⊢
      by_cases hcv : strEnds ".csv" key = true
      · rw [if_pos hcv] at h ⊢
        cases c with
        | csv rows => simp [process_csv_records] at h
        | xml custs => simp at h
        | json recs => simp at h
      · have hcv2 : ¬ (strEnds ".csv" key = true) := by simp [hcv]
        rw [if_neg hcv2] at h ⊢
        simp only [Option.some.injEq, Prod.mk.injEq] at h
        obtain ⟨hs, hv, hi⟩ := h
        rw [← hv, ← hi]

theorem handleCurrent_storeGet (key : String) (c : FileContent) (store s2 : S3Store)
    (vn inn : Nat) (k : String)
    (h : handleCurrent key c store = some (s2, vn, inn))
    (hv : ¬ validKey key = k) (he : ¬ errorKey key = k) :
    storeGet s2 k = storeGet store k := by
  unfold handleCurrent at h
  by_cases hx : strEnds ".xml" key = true
  · rw [if_pos hx] at h
    cases c with
    | xml custs =>
      simp only [Option.some.injEq, Prod.mk.injEq] at h
      rw [← h.1]
      exact storeGet_writePartitionObjs key store _ _ k hv he
    | json recs => simp at h
    | csv rows => simp at h
  · have hx2 : ¬ (strEnds ".xml" key = true) := by simp [hx]
    rw [if_neg hx2] at h
    by_cases hj : strEnds ".json" key = true
    · rw [if_pos hj] at h
      cases c with
      | json recs =>
        simp only [Option.some.injEq, Prod.mk.injEq] at h
        rw [← h.1]
        exact storeGet_writePartitionObjs key store _ _ k hv he
      | xml custs => simp at h
      | csv rows => simp at h
    · have hj2 : ¬ (strEnds ".json" key = true) := by simp [hj]
      rw [if_neg hj2] at h
      by_cases hcv : strEnds ".csv" key = true
      · rw [if_pos hcv] at h
        cases c with
        | csv rows => simp [process_csv_records] at h
        | xml custs => simp at h
        | json recs => simp at h
      · have hcv2 : ¬ (strEnds ".csv" key = true) := by simp [hcv]
        rw [if_neg hcv2] at h
        simp only [Option.some.injEq, Prod.mk.injEq] at h
        rw [← h.1]

theorem lambda_handler_build (key : String) (store : S3Store) (c : FileContent)
    (s2 : S3Store) (vn inn hv hi : Nat)
    (hget : storeGet store key = some c)
    (hhc : handleCurrent key c store = some (s2, vn, inn))
    (hrv : rescanValid s2 = some hv)
    (hre : rescanError s2 = some hi) :
    lambda_handler key store =
      some { store := s2, total_valid := vn + hv, total_invalid := inn + hi,
             dq := dq_score (vn + hv) (inn + hi), glueStarted := decide (0 < vn + hv) } := by
  simp [lambda_handler, hget, hhc, hrv, hre]

theorem lambda_handler_inv (key : String) (store : S3Store) (r : HandlerResult)
    (h : lambda_handler key store = some r) :
    ∃ c s2 vn inn hv hi,
      storeGet store key = some c ∧
      handleCurrent key c store = some (s2, vn, inn) ∧
      rescanValid s2 = some hv ∧
      rescanError s2 = some hi ∧
      r = { store := s2, total_valid := vn + hv, total_invalid := inn + hi,
            dq := dq_score (vn + hv) (inn + hi), glueStarted := decide (0 < vn + hv) } := by
  unfold lambda_handler at h
  cases hc : storeGet store key with
  | none =>
    rw [hc] at h
    exact Option.noConfusion (show (none : Option HandlerResult) = some r from h)
  | some c =>
    rw [hc] at h
    replace h : (do
        let svi ← handleCurrent key c store
        let hv ← rescanValid svi.1
        let hi ← rescanError svi.1
        pure { store := svi.1, total_valid := svi.2.1 + hv, total_invalid := svi.2.2 + hi,
               dq := dq_score (svi.2.1 + hv) (svi.2.2 + hi),
               glueStarted := decide (0 < svi.2.1 + hv) } : Option HandlerResult) = some r := h
    cases hhc : handleCurrent key c store with
    | none =>
      rw [hhc] at h
      exact Option.noConfusion (show (none : Option HandlerResult) = some r from h)
    | some svi =>
      obtain ⟨s2, vn, inn⟩ := svi
      rw [hhc] at h
      replace h : (do
          let hv ← rescanValid s2
          let hi ← rescanError s2
          pure { store := s2, total_valid := vn + hv, total_invalid := inn + hi,
                 dq := dq_score (vn + hv) (inn + hi),
                 glueStarted := decide (0 < vn + hv) } : Option HandlerResult) = some r := h
      cases hrv : rescanValid s2 with
      | none =>
        rw [hrv] at h
        exact Option.noConfusion (show (none : Option HandlerResult) = some r from h)
      | some hv =>
        rw [hrv] at h
        replace h : (do
            let hi ← rescanError s2
            pure { store := s2, total_valid := vn + hv, total_invalid := inn + hi,
                   dq := dq_score (vn + hv) (inn + hi),
                   glueStarted := decide (0 < vn + hv) } : Option HandlerResult) = some r := h
        cases hre : rescanError s2 with
        | none =>
          rw [hre] at h
          exact Option.noConfusion (show (none : Option HandlerResult) = some r from h)
        | some hi =>
          rw [hre] at h
          replace h : some (HandlerResult.mk s2 (vn + hv) (inn + hi)
              (dq_score (vn + hv) (inn + hi)) (decide (0 < vn + hv))) = some r := h
          exact ⟨c, s2, vn, inn, hv, hi, rfl, hhc, hrv, hre, (Option.some.inj h).symm⟩

/-! ### Claim C9 — idempotent partition writes -/

theorem writeP_sides {α : Type} (key : String) (store s2 : S3Store)
    (vl il : List α) (ser : List α → FileContent) (vn inn : Nat)
    (hs : writePartitionObjs key store
        (if vl.isEmpty then none else some (ser vl))
        (if il.isEmpty then none else some (ser il)) = s2)
    (hv : vl.length = vn) (hi : il.length = inn) :
    (vn = 0 → inn = 0 → s2 = store) ∧
    (vn = 0 → ¬ inn = 0 → ∃ c2, s2 = storePut store (errorKey key) c2) ∧
    (¬ vn = 0 → inn = 0 → ∃ c1, s2 = storePut store (validKey key) c1) := by
  subst hv
  subst hi
  refine ⟨?_, ?_, ?_⟩
  · intro h1 h2
    have hvl : vl = [] := List.length_eq_zero.mp h1
    have hil : il = [] := List.length_eq_zero.mp h2
    subst hvl
    subst hil
    simp only [List.isEmpty_nil, if_true] at hs
    exact hs.symm
  · intro h1 h2
    have hvl : vl = [] := List.length_eq_zero.mp h1
    subst hvl
    cases hil : il with
    | nil =>
      rw [hil] at h2
      simp at h2
    | cons a t =>
      rw [hil] at hs
      simp only [List.isEmpty_nil, List.isEmpty_cons, if_true] at hs
      simp at hs
      exact ⟨ser (a :: t), hs.symm⟩
  · intro h1 h2
    have hil : il = [] := List.length_eq_zero.mp h2
    subst hil
    cases hvl : vl with
    | nil =>
      rw [hvl] at h1
      simp at h1
    | cons a t =>
      rw [hvl] at hs
      simp only [List.isEmpty_nil, List.isEmpty_cons, if_true] at hs
      simp at hs
      exact ⟨ser (a :: t), hs.symm⟩

theorem handleCurrent_sides (key : String) (c : FileContent) (store s2 : S3Store) (vn inn : Nat)
    (h : handleCurrent key c store = some (s2, vn, inn)) :
    (vn = 0 → inn = 0 → s2 = store) ∧
    (vn = 0 → ¬ inn = 0 → ∃ c2, s2 = storePut store (errorKey key) c2) ∧
    (¬ vn = 0 → inn = 0 → ∃ c1, s2 = storePut store (validKey key) c1) := by
  unfold handleCurrent at h
  by_cases hx : strEnds ".xml" key = true
  · rw [if_pos hx] at h
    cases c with
    | xml custs =>
      simp only [Option.some.injEq, Prod.mk.injEq] at h
      exact writeP_sides key store s2 _ _ _ vn inn h.1 h.2.1 h.2.2
    | json recs => simp at h
    | csv rows => simp at h
  · have hx2 : ¬ (strEnds ".xml" key = true) := by simp [hx]
    rw [if_neg hx2] at h
    by_cases hj : strEnds ".json" key = true
    · rw [if_pos hj] at h
      cases c with
      | json recs =>
        simp only [Option.some.injEq, Prod.mk.injEq] at h
        exact writeP_sides key store s2 _ _ _ vn inn h.1 h.2.1 h.2.2
      | xml custs => simp at h
      | csv rows => simp at h
    · have hj2 : ¬ (strEnds ".json" key = true) := by simp [hj]
      rw [if_neg hj2] at h
      by_cases hcv : strEnds ".csv" key = true
      · rw [if_pos hcv] at h
        cases c with
        | csv rows => simp [process_csv_records] at h
        | xml custs => simp at h
        | json recs => simp at h
      · have hcv2 : ¬ (strEnds ".csv" key = true) := by simp [hcv]
        rw [if_neg hcv2] at h
        simp only [Option.some.injEq, Prod.mk.injEq] at h
        refine ⟨fun _ _ => h.1.symm, fun _ h2 => absurd h.2.2.symm h2, fun h1 _ => absurd h.2.1.symm h1⟩

/-- C9: re-running the validation-and-partitioning stage on the same
source file yields the identical result — in particular identical
partition contents at the derived validated/error keys, which are
overwritten, not appended — and an empty accepted (resp. rejected)
side causes no write for that side. -/
theorem validation_stage_idempotent (key : String) (store : S3Store) (r : HandlerResult)
    (h : lambda_handler key store = some r)
    (hvk : ¬ validKey key = key) (hek : ¬ errorKey key = key) :
    lambda_handler key r.store = some r ∧
    (∀ c s2 vn inn, handleCurrent key c store = some (s2, vn, inn) →
      (vn = 0 → inn = 0 → s2 = store) ∧
      (vn = 0 → ¬ inn = 0 → ∃ c2, s2 = storePut store (errorKey key) c2) ∧
      (¬ vn = 0 → inn = 0 → ∃ c1, s2 = storePut store (validKey key) c1)) := by
  constructor
  · obtain ⟨c, s2, vn, inn, hv, hi, hget, hhc, hrv, hre, hr⟩ := lambda_handler_inv key store r h
    have hget2 : storeGet s2 key = some c := by
      rw [handleCurrent_storeGet key c store s2 vn inn key hhc hvk hek]
      exact hget
    have hhc2 := handleCurrent_again key c store s2 vn inn hhc
    have hbuild := lambda_handler_build key s2 c s2 vn inn hv hi hget2 hhc2 hrv hre
    rw [hr]
    exact hbuild
  · intro c s2 vn inn hhc
    exact handleCurrent_sides key c store s2 vn inn hhc

def jsonGoodRec : JRec :=
  ⟨[("CustomerID", .str "7"), ("Amount", .int 5), ("Product", .str "X"), ("Date", .str "2024-01-01")]⟩

def jsonBadRec : JRec := ⟨[("CustomerID", .str "x")]⟩

def c9Store : S3Store := [("raw/a.json", .json [jsonGoodRec, jsonBadRec])]

def c9Result : HandlerResult :=
  { store := [("error/a.json", .json [jsonBadRec]),
              ("validated/a.json", .json [jsonGoodRec]),
              ("raw/a.json", .json [jsonGoodRec, jsonBadRec])],
    total_valid := 2, total_invalid := 2, dq := dq_score 2 2, glueStarted := true }

theorem validation_stage_idempotent_witness :
    lambda_handler "raw/a.json" c9Store = some c9Result ∧
    lambda_handler "raw/a.json" c9Result.store = some c9Result := by
  have h : lambda_handler "raw/a.json" c9Store = some c9Result := rfl
  exact ⟨h, (validation_stage_idempotent "raw/a.json" c9Store c9Result h
    (by decide) (by decide)).1⟩

/-! ### Claim C2 — what the batch trigger actually tests -/

/-- C2 amended: the Batch Trigger starts the consolidation job iff
`total_valid > 0`, where `total_valid` is the current file's accepted
count plus the accepted counts obtained by re-validating every object
under the `validated/` prefix after the current write — not the
current invocation's count alone.  A rejection-only file therefore
does start the job whenever historical accepted objects exist. -/
theorem trigger_iff_total_valid (key : String) (store : S3Store) (r : HandlerResult)
    (h : lambda_handler key store = some r) :
    (r.glueStarted = true ↔ 0 < r.total_valid) ∧
    (∃ c s2 vn inn hv hi,
      storeGet store key = some c ∧
      handleCurrent key c store = some (s2, vn, inn) ∧
      rescanValid s2 = some hv ∧ rescanError s2 = some hi ∧
      r.total_valid = vn + hv ∧ r.total_invalid = inn + hi ∧ r.store = s2) := by
  obtain ⟨c, s2, vn, inn, hv, hi, hget, hhc, hrv, hre, hr⟩ := lambda_handler_inv key store r h
  subst hr
  constructor
  · simp
  · exact ⟨c, s2, vn, inn, hv, hi, hget, hhc, hrv, hre, rfl, rfl, rfl⟩

def c2Store : S3Store :=
  [("raw/f.json", .json [jsonBadRec]), ("validated/h.json", .json [jsonGoodRec])]

def c2Result : HandlerResult :=
  { store := [("error/f.json", .json [jsonBadRec]),
              ("raw/f.json", .json [jsonBadRec]),
              ("validated/h.json", .json [jsonGoodRec])],
    total_valid := 1, total_invalid := 2, dq := dq_score 1 2, glueStarted := true }

/-- C2 counterexample: a store holding one historical validated object
with an accepted record; the incoming file `raw/f.json` yields 0
accepted records, yet the invocation starts the Glue job. -/
theorem trigger_fires_on_rejection_only_file :
    lambda_handler "raw/f.json" c2Store = some c2Result ∧
    c2Result.glueStarted = true ∧
    (handleCurrent "raw/f.json" (FileContent.json [jsonBadRec]) c2Store).map
      (fun t => t.2.1) = some 0 :=
  ⟨rfl, rfl, rfl⟩

theorem trigger_iff_total_valid_witness :
    lambda_handler "raw/f.json" c2Store = some c2Result ∧
    (c2Result.glueStarted = true ↔ 0 < c2Result.total_valid) := by
  have h : lambda_handler "raw/f.json" c2Store = some c2Result := rfl
  exact ⟨h, (trigger_iff_total_valid "raw/f.json" c2Store c2Result h).1⟩

/-! ### Claim C10 — the rescan double-counts the current file -/

theorem filter_fresh (s : S3Store) (k : String) (h : ∀ p ∈ s, ¬ p.1 = k) :
    s.filter (fun p => !(p.1 == k)) = s := by
  induction s with
  | nil => rfl
  | cons a t ih =>
    have ha : ¬ a.1 = k := h a (by simp)
    simp only [List.filter_cons]
    have : (!(a.1 == k)) = true := by simp [ha]
    rw [if_pos this, ih (fun p hp => h p (by simp [hp]))]

theorem storePut_fresh (s : S3Store) (k : String) (c : FileContent)
    (h : ∀ p ∈ s, ¬ p.1 = k) :
    storePut s k c = (k, c) :: s := by
  unfold storePut
  rw [filter_fresh s k h]

theorem rescanValid_cons_skip (s : S3Store) (k : String) (c : FileContent)
    (hk : strStarts "validated/" k = false) :
    rescanValid ((k, c) :: s) = rescanValid s := by
  show (if strStarts "validated/" k = true then _ else rescanValid s) = rescanValid s
  rw [if_neg (by simp [hk])]

theorem rescanValid_cons_count (s : S3Store) (k : String) (c : FileContent) (n m : Nat)
    (hk : strStarts "validated/" k = true)
    (hc : countValidObj k c = some n) (hs : rescanValid s = some m) :
    rescanValid ((k, c) :: s) = some (n + m) := by
  show (if strStarts "validated/" k = true then
      (do
        let n2 ← countValidObj k c
        let m2 ← rescanValid s
        pure (n2 + m2))
    else rescanValid s) = some (n + m)
  rw [if_pos hk, hc, hs]
  rfl

theorem rescanError_cons_skip (s : S3Store) (k : String) (c : FileContent)
    (hk : strStarts "error/" k = false) :
    rescanError ((k, c) :: s) = rescanError s := by
  show (if strStarts "error/" k = true then _ else rescanError s) = rescanError s
  rw [if_neg (by simp [hk])]

theorem rescanError_cons_count (s : S3Store) (k : String) (c : FileContent) (n m : Nat)
    (hk : strStarts "error/" k = true)
    (hc : countErrorObj k c = some n) (hs : rescanError s = some m) :
    rescanError ((k, c) :: s) = some (n + m) := by
  show (if strStarts "error/" k = true then
      (do
        let n2 ← countErrorObj k c
        let m2 ← rescanError s
        pure (n2 + m2))
    else rescanError s) = some (n + m)
  rw [if_pos hk, hc, hs]
  rfl

/-- After the current file's partition writes, the `validated/` rescan
counts the just-written accepted object once more on top of the
historical total, and the `error/` rescan likewise counts the
just-written rejected object. -/
theorem double_count_core {α : Type} (key : String) (store s2 : S3Store)
    (vl il : List α) (ser : List α → FileContent) (hv2 hi2 : Nat)
    (hs : writePartitionObjs key store
        (if vl.isEmpty then none else some (ser vl))
        (if il.isEmpty then none else some (ser il)) = s2)
    (hcountv : countValidObj (validKey key) (ser vl) = some vl.length)
    (hcounti : countErrorObj (errorKey key) (ser il) = some il.length)
    (hvkpre : strStarts "validated/" (validKey key) = true)
    (hekpre : strStarts "error/" (errorKey key) = true)
    (hvknoterr : strStarts "error/" (validKey key) = false)
    (heknotval : strStarts "validated/" (errorKey key) = false)
    (hfreshv : ∀ p ∈ store, ¬ p.1 = validKey key)
    (hfreshe : ∀ p ∈ store, ¬ p.1 = errorKey key)
    (hne : ¬ validKey key = errorKey key)
    (hrv : rescanValid store = some hv2)
    (hre : rescanError store = some hi2) :
    (¬ vl = [] → rescanValid s2 = some (vl.length + hv2)) ∧
    (¬ il = [] → rescanError s2 = some (il.length + hi2)) := by
  constructor
  · intro hvl
    have hvle : vl.isEmpty = false := by
      cases vl with
      | nil => exact absurd rfl hvl
      | cons a t => rfl
    rw [hvle] at hs
    simp only [Bool.false_eq_true, if_false] at hs
    cases hil : il with
    | nil =>
      rw [hil] at hs
      simp only [List.isEmpty_nil, if_true] at hs
      have hput : storePut store (validKey key) (ser vl) = (validKey key, ser vl) :: store :=
        storePut_fresh store (validKey key) (ser vl) hfreshv
      have hs2 : ((validKey key, ser vl) :: store) = s2 := by
        rw [← hput]
        exact hs
      rw [← hs2]
      exact rescanValid_cons_count store (validKey key) (ser vl) vl.length hv2
        hvkpre hcountv hrv
    | cons a t =>
      rw [hil] at hs
      simp only [List.isEmpty_cons, Bool.false_eq_true, if_false] at hs
      have hput1 : storePut store (validKey key) (ser vl) = (validKey key, ser vl) :: store :=
        storePut_fresh store (validKey key) (ser vl) hfreshv
      have hfresh2 : ∀ p ∈ (validKey key, ser vl) :: store, ¬ p.1 = errorKey key := by
        intro p hp
        rcases List.mem_cons.mp hp with h1 | h1
        · rw [h1]
          exact hne
        · exact hfreshe p h1
      have hs2 : ((errorKey key, ser (a :: t)) :: (validKey key, ser vl) :: store) = s2 := by
        rw [← storePut_fresh _ (errorKey key) (ser (a :: t)) hfresh2, ← hput1]
        exact hs
      rw [← hs2]
      rw [rescanValid_cons_skip _ (errorKey key) _ heknotval]
      exact rescanValid_cons_count store (validKey key) (ser vl) vl.length hv2
        hvkpre hcountv hrv
  · intro hil
    have hile : il.isEmpty = false := by
      cases il with
      | nil => exact absurd rfl hil
      | cons a t => rfl
    rw [hile] at hs
    simp only [Bool.false_eq_true, if_false] at hs
    cases hvl : vl with
    | nil =>
      rw [hvl] at hs
      simp only [List.isEmpty_nil, if_true] at hs
      have hput : storePut store (errorKey key) (ser il) = (errorKey key, ser il) :: store :=
        storePut_fresh store (errorKey key) (ser il) hfreshe
      have hs2 : ((errorKey key, ser il) :: store) = s2 := by
        rw [← hput]
        exact hs
      rw [← hs2]
      exact rescanError_cons_count store (errorKey key) (ser il) il.length hi2
        hekpre hcounti hre
    | cons a t =>
      rw [hvl] at hs
      simp only [List.isEmpty_cons, Bool.false_eq_true, if_false] at hs
      have hput1 : storePut store (validKey key) (ser (a :: t)) = (validKey key, ser (a :: t)) :: store :=
        storePut_fresh store (validKey key) (ser (a :: t)) hfreshv
      have hfresh2 : ∀ p ∈ (validKey key, ser (a :: t)) :: store, ¬ p.1 = errorKey key := by
        intro p hp
        rcases List.mem_cons.mp hp with h1 | h1
        · rw [h1]
          exact hne
        · exact hfreshe p h1
      have hs2 : ((errorKey key, ser il) :: (validKey key, ser (a :: t)) :: store) = s2 := by
        rw [← storePut_fresh _ (errorKey key) (ser il) hfresh2, ← hput1]
        exact hs
      rw [← hs2]
      rw [rescanError_cons_count ((validKey key, ser (a :: t)) :: store)
        (errorKey key) (ser il) il.length hi2 hekpre hcounti ?base]
      case base =>
        rw [rescanError_cons_skip store (validKey key) _ hvknoterr]
        exact hre

/-- C10: when an invocation writes a non-empty accepted (resp.
rejected) partition for the current JSON or XML file, the subsequent
rescan of the `validated/` (resp. `error/`) prefix includes the object
just written, so each record of the current file contributes twice to
`total_valid` (resp. `total_invalid`) on top of the purely historical
totals — and the reported score `dq_score total_valid total_invalid`
therefore weights the current file double. -/
theorem rescan_double_counts (key : String) (store : S3Store) (r : HandlerResult) (hv2 hi2 : Nat)
    (hvkpre : strStarts "validated/" (validKey key) = true)
    (hekpre : strStarts "error/" (errorKey key) = true)
    (hvknoterr : strStarts "error/" (validKey key) = false)
    (heknotval : strStarts "validated/" (errorKey key) = false)
    (hfreshv : ∀ p ∈ store, ¬ p.1 = validKey key)
    (hfreshe : ∀ p ∈ store, ¬ p.1 = errorKey key)
    (hne : ¬ validKey key = errorKey key)
    (hrvbase : rescanValid store = some hv2)
    (hrebase : rescanError store = some hi2)
    (hrun : lambda_handler key store = some r) :
    (∀ recs, storeGet store key = some (.json recs) →
      strEnds ".xml" key = false → strEnds ".json" key = true →
      strEnds ".xml" (validKey key) = false → strEnds ".json" (validKey key) = true →
      strEnds ".xml" (errorKey key) = false → strEnds ".json" (errorKey key) = true →
      (¬ (process_json_records recs).1 = [] →
        r.total_valid = 2 * (process_json_records recs).1.length + hv2) ∧
      (¬ (process_json_records recs).2 = [] →
        r.total_invalid = 2 * (process_json_records recs).2.length + hi2)) ∧
    (∀ custs, storeGet store key = some (.xml custs) →
      strEnds ".xml" key = true →
      strEnds ".xml" (validKey key) = true →
      strEnds ".xml" (errorKey key) = true →
      (¬ (process_xml_records custs).1 = [] →
        r.total_valid = 2 * (process_xml_records custs).1.length + hv2) ∧
      (¬ (process_xml_records custs).2 = [] →
        r.total_invalid = 2 * (process_xml_records custs).2.length + hi2)) := by
  obtain ⟨c, s2, vn, inn, hvr, hir, hget, hhc, hrvS, hreS, hr⟩ :=
    lambda_handler_inv key store r hrun
  constructor
  · intro recs hgetj hkx hkj hvx hvj hex hej
    rw [hget] at hgetj
    have hc := Option.some.inj hgetj
    subst hc
    unfold handleCurrent at hhc
    rw [if_neg (by simp [hkx]), if_pos hkj] at hhc
    simp only [Option.some.injEq, Prod.mk.injEq] at hhc
    obtain ⟨hs, hvn, hinn⟩ := hhc
    have hcv : countValidObj (validKey key) (FileContent.json ((process_json_records recs).1)) =
        some ((process_json_records recs).1).length := by
      unfold countValidObj
      rw [if_neg (by simp [hvx]), if_pos hvj]
      show some ((process_json_records ((process_json_records recs).1)).1.length) =
        some ((process_json_records recs).1).length
      rw [process_json_valid_roundtrip recs]
    have hce : countErrorObj (errorKey key) (FileContent.json ((process_json_records recs).2)) =
        some ((process_json_records recs).2).length := by
      unfold countErrorObj
      rw [if_neg (by simp [hex]), if_pos hej]
      show some ((process_json_records ((process_json_records recs).2)).2.length) =
        some ((process_json_records recs).2).length
      rw [process_json_invalid_roundtrip recs]
    have hdc := double_count_core key store s2 (process_json_records recs).1
      (process_json_records recs).2 FileContent.json hv2 hi2 hs hcv hce
      hvkpre hekpre hvknoterr heknotval hfreshv hfreshe hne hrvbase hrebase
    constructor
    · intro hne1
      have h1 := hdc.1 hne1
      rw [hrvS] at h1
      have hv3 := Option.some.inj h1
      subst hr
      show vn + hvr = 2 * (process_json_records recs).1.length + hv2
      omega
    · intro hne2
      have h2 := hdc.2 hne2
      rw [hreS] at h2
      have hi3 := Option.some.inj h2
      subst hr
      show inn + hir = 2 * (process_json_records recs).2.length + hi2
      omega
  · intro custs hgetx hkx hvx hex
    rw [hget] at hgetx
    have hc := Option.some.inj hgetx
    subst hc
    unfold handleCurrent at hhc
    rw [if_pos hkx] at hhc
    simp only [Option.some.injEq, Prod.mk.injEq] at hhc
    obtain ⟨hs, hvn, hinn⟩ := hhc
    have hcv : countValidObj (validKey key) (FileContent.xml ((process_xml_records custs).1)) =
        some ((process_xml_records custs).1).length := by
      unfold countValidObj
      rw [if_pos hvx]
      show some ((process_xml_records ((process_xml_records custs).1)).1.length) =
        some ((process_xml_records custs).1).length
      rw [process_xml_valid_roundtrip custs]
    have hce : countErrorObj (errorKey key) (FileContent.xml ((process_xml_records custs).2)) =
        some ((process_xml_records custs).2).length := by
      unfold countErrorObj
      rw [if_pos hex]
      show some ((process_xml_records ((process_xml_records custs).2)).2.length) =
        some ((process_xml_records custs).2).length
      rw [process_xml_invalid_roundtrip custs]
    have hdc := double_count_core key store s2 (process_xml_records custs).1
      (process_xml_records custs).2 FileContent.xml hv2 hi2 hs hcv hce
      hvkpre hekpre hvknoterr heknotval hfreshv hfreshe hne hrvbase hrebase
    constructor
    · intro hne1
      have h1 := hdc.1 hne1
      rw [hrvS] at h1
      have hv3 := Option.some.inj h1
      subst hr
      show vn + hvr = 2 * (process_xml_records custs).1.length + hv2
      omega
    · intro hne2
      have h2 := hdc.2 hne2
      rw [hreS] at h2
      have hi3 := Option.some.inj h2
      subst hr
      show inn + hir = 2 * (process_xml_records custs).2.length + hi2
      omega

def c10Store : S3Store :=
  [("raw/a.json", .json [jsonGoodRec, jsonBadRec]),
   ("validated/h.json", .json [jsonGoodRec])]

def c10Result : HandlerResult :=
  { store := [("error/a.json", .json [jsonBadRec]),
              ("validated/a.json", .json [jsonGoodRec]),
              ("raw/a.json", .json [jsonGoodRec, jsonBadRec]),
              ("validated/h.json", .json [jsonGoodRec])],
    total_valid := 3, total_invalid := 2, dq := dq_score 3 2, glueStarted := true }

theorem rescan_double_counts_witness :
    lambda_handler "raw/a.json" c10Store = some c10Result ∧
    c10Result.total_valid = 2 * (process_json_records [jsonGoodRec, jsonBadRec]).1.length + 1 ∧
    c10Result.total_invalid = 2 * (process_json_records [jsonGoodRec, jsonBadRec]).2.length + 0 := by
  have hrun : lambda_handler "raw/a.json" c10Store = some c10Result := rfl
  have h := (rescan_double_counts "raw/a.json" c10Store c10Result 1 0
      (by decide) (by decide) (by decide) (by decide)
      (by decide) (by decide) (by decide) rfl rfl hrun).1
      [jsonGoodRec, jsonBadRec] rfl
      (by decide) (by decide) (by decide) (by decide) (by decide) (by decide)
  exact ⟨hrun, h.1 (by decide), h.2 (by decide)⟩
